import Mathlib

/-!
Shallow embedding of the Agenthedge trading core, translated from the
Python sources:

* `src/portfolio/store.py`  — portfolio ledger (`apply_fill`, `bulk_load`)
* `src/agents/messaging.py` — in-memory pub/sub message bus
* `src/agents/impl/quant.py` — strategy-council consensus building
* `src/agents/impl/risk.py`  — risk proposal evaluation and stop-loss latch
* `src/agents/impl/compliance.py` — compliance gate
* `src/agents/runtime.py`   — orchestrator kill-switch state machine

Python floats are modelled as exact rationals (`ℚ`); Python dicts are
modelled as association lists that preserve insertion order (update in
place, append when the key is new), matching CPython dict semantics.
Side effects (bus publishes, audit records, alerts) are modelled as
explicit output lists.
-/

namespace Agenthedge

/-- Ordered-dict lookup (dict keys are unique, so first match suffices). -/
def alistGet {α : Type} : List (String × α) → String → Option α
  | [], _ => none
  | kv :: rest, k => if kv.1 = k then some kv.2 else alistGet rest k

/-- Ordered-dict write: update the entry in place if the key is present,
append a fresh entry otherwise (CPython dict assignment semantics). -/
def alistInsert {α : Type} : List (String × α) → String → α → List (String × α)
  | [], k, v => [(k, v)]
  | kv :: rest, k, v =>
      if kv.1 = k then (k, v) :: rest else kv :: alistInsert rest k v

/-- Ordered-dict deletion of the entry with the given key (`dict.pop`). -/
def alistRemove {α : Type} : List (String × α) → String → List (String × α)
  | [], _ => []
  | kv :: rest, k =>
      if kv.1 = k then alistRemove rest k else kv :: alistRemove rest k

/-! ## Portfolio ledger (`src/portfolio/store.py`) -/

/-- One stored position: `(quantity, average_cost)`. -/
abbrev PositionState := ℚ × ℚ

/-- In-memory ledger state: cash, realized P&L and the positions dict.
`last_updated` (a wall-clock timestamp) and the JSON persistence step are
outside the model. -/
structure PortfolioState where
  cash : ℚ
  realized_pnl : ℚ
  positions : List (String × PositionState)
  deriving Repr, DecidableEq

/-- Return value of a successful `apply_fill`. -/
structure FillResult where
  cash : ℚ
  realized_pnl : ℚ
  position_quantity : ℚ
  deriving Repr, DecidableEq

/-- Embeds `PortfolioStore.apply_fill` (store.py lines 111-154).  The Python
method raises `ValueError` before touching any state when `quantity == 0`
or `price <= 0`; this is modelled by returning the unchanged state paired
with `Except.error`. -/
def apply_fill (s : PortfolioState) (symbol : String) (quantity price : ℚ) :
    PortfolioState × Except String FillResult :=
  if quantity = 0 then (s, Except.error "quantity must be non-zero")
  else if price ≤ 0 then (s, Except.error "price must be positive")
  else
    let existing := (alistGet s.positions symbol).getD (0, price)
    let existing_qty := existing.1
    let existing_cost := existing.2
    let realized :=
      if existing_qty ≠ 0 ∧ ¬((0 < existing_qty) ↔ (0 < quantity)) then
        (price - existing_cost) * min |existing_qty| |quantity| *
          (if 0 < existing_qty then 1 else -1)
      else 0
    let new_qty := existing_qty + quantity
    let positions1 :=
      if new_qty = 0 then alistRemove s.positions symbol
      else if (0 ≤ existing_qty ∧ 0 < quantity) ∨
              (existing_qty ≤ 0 ∧ quantity < 0) then
        alistInsert s.positions symbol
          (new_qty,
            if new_qty ≠ 0 then
              (existing_cost * existing_qty + price * quantity) / new_qty
            else price)
      else
        alistInsert s.positions symbol (new_qty, existing_cost)
    let s1 : PortfolioState :=
      { cash := s.cash - quantity * price
        realized_pnl := s.realized_pnl + realized
        positions := positions1 }
    let position_qty := ((alistGet positions1 symbol).map (fun p => p.1)).getD 0
    (s1, Except.ok ⟨s1.cash, s1.realized_pnl, position_qty⟩)

/-- A `Position` argument to `bulk_load`. -/
structure Position where
  symbol : String
  quantity : ℚ
  average_cost : ℚ
  deriving Repr, DecidableEq

/-- Embeds `PortfolioStore.bulk_load` (store.py lines 156-168): replaces the
positions dict with exactly the given positions (no filtering of
zero-quantity entries) and optionally overwrites cash. -/
def bulk_load (s : PortfolioState) (positions : List Position)
    (cash : Option ℚ) : PortfolioState :=
  { cash := cash.getD s.cash
    realized_pnl := s.realized_pnl
    positions :=
      positions.foldl
        (fun acc p => alistInsert acc p.symbol (p.quantity, p.average_cost)) [] }

/-- A fill request, used to talk about sequences of fills. -/
structure Fill where
  symbol : String
  quantity : ℚ
  price : ℚ
  deriving Repr, DecidableEq

/-- Fold a sequence of fills through `apply_fill`, keeping the state. -/
def apply_fills (s : PortfolioState) (fills : List Fill) : PortfolioState :=
  fills.foldl (fun st f => (apply_fill st f.symbol f.quantity f.price).1) s

/-- Looking up a key just written by `alistInsert` returns the new value. -/
theorem alistGet_alistInsert {α : Type} (l : List (String × α)) (k : String) (v : α) :
    alistGet (alistInsert l k v) k = some v := by
  induction l with
  | nil => simp [alistInsert, alistGet]
  | cons x xs ih =>
    by_cases hx : x.1 = k
    · simp [alistInsert, alistGet, hx]
    · simp [alistInsert, alistGet, hx, ih]

/-- Every entry of `alistInsert l k v` is the written pair or an entry of `l`. -/
theorem mem_alistInsert {α : Type} {l : List (String × α)} {k : String} {v : α}
    {kv : String × α} (h : kv ∈ alistInsert l k v) : kv = (k, v) ∨ kv ∈ l := by
  induction l with
  | nil => simpa [alistInsert] using h
  | cons x xs ih =>
    by_cases hx : x.1 = k
    · rw [alistInsert, if_pos hx] at h
      rcases List.mem_cons.1 h with h | h
      · exact Or.inl h
      · exact Or.inr (List.mem_cons_of_mem x h)
    · rw [alistInsert, if_neg hx] at h
      rcases List.mem_cons.1 h with h | h
      · exact Or.inr (h ▸ List.mem_cons_self x xs)
      · rcases ih h with h | h
        · exact Or.inl h
        · exact Or.inr (List.mem_cons_of_mem x h)

/-- Every entry of `alistRemove l k` is an entry of `l`. -/
theorem mem_alistRemove {α : Type} {l : List (String × α)} {k : String}
    {kv : String × α} (h : kv ∈ alistRemove l k) : kv ∈ l := by
  induction l with
  | nil => simp [alistRemove] at h
  | cons x xs ih =>
    by_cases hx : x.1 = k
    · rw [alistRemove, if_pos hx] at h
      exact List.mem_cons_of_mem x (ih h)
    · rw [alistRemove, if_neg hx] at h
      rcases List.mem_cons.1 h with h | h
      · exact h ▸ List.mem_cons_self x xs
      · exact List.mem_cons_of_mem x (ih h)

/-- A valid fill always debits cash by exactly `quantity * price`. -/
theorem apply_fill_cash (s : PortfolioState) (sym : String) (q p : ℚ)
    (hq : q ≠ 0) (hp : 0 < p) :
    (apply_fill s sym q p).1.cash = s.cash - q * p := by
  simp [apply_fill, hq, not_le.mpr hp]

/-- Realized P&L moves only when the fill opposes a non-zero existing
position (the guard on store.py line 126). -/
theorem apply_fill_realized_change (s : PortfolioState) (sym : String) (q p : ℚ)
    (h : (apply_fill s sym q p).1.realized_pnl ≠ s.realized_pnl) :
    ((alistGet s.positions sym).getD (0, p)).1 ≠ 0 ∧
      ¬((0 < ((alistGet s.positions sym).getD (0, p)).1) ↔ (0 < q)) := by
  by_cases hq : q = 0
  · simp [apply_fill, hq] at h
  by_cases hp : p ≤ 0
  · simp [apply_fill, hq, hp] at h
  by_cases hg : ((alistGet s.positions sym).getD (0, p)).1 ≠ 0 ∧
      ¬((0 < ((alistGet s.positions sym).getD (0, p)).1) ↔ (0 < q))
  · exact hg
  · exfalso
    apply h
    simp [apply_fill, hq, hp, hg]

theorem apply_fills_cash (fills : List Fill) :
    ∀ s : PortfolioState, (∀ f ∈ fills, f.quantity ≠ 0 ∧ 0 < f.price) →
      (apply_fills s fills).cash
        = s.cash - (fills.map (fun f => f.quantity * f.price)).sum := by
  induction fills with
  | nil => intro s _; simp [apply_fills]
  | cons f fs ih =>
    intro s hv
    have hf := hv f (List.mem_cons_self f fs)
    have hrest : ∀ g ∈ fs, g.quantity ≠ 0 ∧ 0 < g.price :=
      fun g hg => hv g (List.mem_cons_of_mem f hg)
    have step : apply_fills s (f :: fs)
        = apply_fills (apply_fill s f.symbol f.quantity f.price).1 fs := rfl
    rw [step, ih _ hrest, apply_fill_cash s f.symbol f.quantity f.price hf.1 hf.2]
    simp
    ring

/-- C1: over any sequence of valid fills (quantity ≠ 0, price > 0), cash
after N fills equals the initial cash minus `Σ quantity_i * price_i`, and
realized P&L changes at step i only when that fill opposes a non-zero
existing position (direction-reducing or reversing). -/
theorem c1_cash_additivity_and_realized_gating (s0 : PortfolioState)
    (fills : List Fill) (hv : ∀ f ∈ fills, f.quantity ≠ 0 ∧ 0 < f.price) :
    (apply_fills s0 fills).cash
        = s0.cash - (fills.map (fun f => f.quantity * f.price)).sum
    ∧ ∀ i : Fin fills.length,
        (apply_fill (apply_fills s0 (fills.take i.1)) (fills.get i).symbol
            (fills.get i).quantity (fills.get i).price).1.realized_pnl
          ≠ (apply_fills s0 (fills.take i.1)).realized_pnl →
        ((alistGet (apply_fills s0 (fills.take i.1)).positions
            (fills.get i).symbol).getD (0, (fills.get i).price)).1 ≠ 0 ∧
        ¬((0 < ((alistGet (apply_fills s0 (fills.take i.1)).positions
            (fills.get i).symbol).getD (0, (fills.get i).price)).1)
          ↔ (0 < (fills.get i).quantity)) := by
  refine ⟨apply_fills_cash fills s0 hv, ?_⟩
  intro i h
  exact apply_fill_realized_change _ _ _ _ h

theorem c1_witness :
    (∀ f ∈ ([⟨"A", 2, 100⟩, ⟨"A", -1, 110⟩] : List Fill),
        f.quantity ≠ 0 ∧ 0 < f.price)
    ∧ ((apply_fills ⟨1000, 0, []⟩ [⟨"A", 2, 100⟩, ⟨"A", -1, 110⟩]).cash
        = (1000 : ℚ)
          - (([⟨"A", 2, 100⟩, ⟨"A", -1, 110⟩] : List Fill).map
              (fun f => f.quantity * f.price)).sum
    ∧ ∀ i : Fin ([⟨"A", 2, 100⟩, ⟨"A", -1, 110⟩] : List Fill).length,
        (apply_fill
            (apply_fills ⟨1000, 0, []⟩
              (([⟨"A", 2, 100⟩, ⟨"A", -1, 110⟩] : List Fill).take i.1))
            ((([⟨"A", 2, 100⟩, ⟨"A", -1, 110⟩] : List Fill).get i)).symbol
            ((([⟨"A", 2, 100⟩, ⟨"A", -1, 110⟩] : List Fill).get i)).quantity
            ((([⟨"A", 2, 100⟩, ⟨"A", -1, 110⟩] : List Fill).get i)).price).1.realized_pnl
          ≠ (apply_fills ⟨1000, 0, []⟩
              (([⟨"A", 2, 100⟩, ⟨"A", -1, 110⟩] : List Fill).take i.1)).realized_pnl →
        ((alistGet (apply_fills ⟨1000, 0, []⟩
              (([⟨"A", 2, 100⟩, ⟨"A", -1, 110⟩] : List Fill).take i.1)).positions
            ((([⟨"A", 2, 100⟩, ⟨"A", -1, 110⟩] : List Fill).get i)).symbol).getD
              (0, ((([⟨"A", 2, 100⟩, ⟨"A", -1, 110⟩] : List Fill).get i)).price)).1 ≠ 0 ∧
        ¬((0 < ((alistGet (apply_fills ⟨1000, 0, []⟩
              (([⟨"A", 2, 100⟩, ⟨"A", -1, 110⟩] : List Fill).take i.1)).positions
            ((([⟨"A", 2, 100⟩, ⟨"A", -1, 110⟩] : List Fill).get i)).symbol).getD
              (0, ((([⟨"A", 2, 100⟩, ⟨"A", -1, 110⟩] : List Fill).get i)).price)).1)
          ↔ (0 < ((([⟨"A", 2, 100⟩, ⟨"A", -1, 110⟩] : List Fill).get i)).quantity))) :=
  ⟨by intro f hf; fin_cases hf <;> norm_num,
   c1_cash_additivity_and_realized_gating ⟨1000, 0, []⟩ _
     (by intro f hf; fin_cases hf <;> norm_num)⟩

/-- C2: a fill with `quantity = 0` or `price ≤ 0` fails (the Python raises
`ValueError` before touching state) and leaves cash, realized P&L and the
positions map completely unchanged. -/
theorem c2_invalid_fill_rejected_without_mutation (s : PortfolioState)
    (sym : String) (q p : ℚ) (h : q = 0 ∨ p ≤ 0) :
    (apply_fill s sym q p).1 = s ∧
      ∀ r : FillResult, (apply_fill s sym q p).2 ≠ Except.ok r := by
  rcases h with h | h
  · constructor
    · simp [apply_fill, h]
    · intro r; simp [apply_fill, h]
  · by_cases hq : q = 0
    · constructor
      · simp [apply_fill, hq]
      · intro r; simp [apply_fill, hq]
    · constructor
      · simp [apply_fill, hq, h]
      · intro r; simp [apply_fill, hq, h]

theorem c2_witness :
    ((0 : ℚ) = 0 ∨ (5 : ℚ) ≤ 0) ∧
      ((apply_fill ⟨1000, 7, [("Y", (3, 10))]⟩ "X" 0 5).1
          = (⟨1000, 7, [("Y", (3, 10))]⟩ : PortfolioState) ∧
        ∀ r : FillResult,
          (apply_fill ⟨1000, 7, [("Y", (3, 10))]⟩ "X" 0 5).2 ≠ Except.ok r) :=
  ⟨Or.inl rfl,
   c2_invalid_fill_rejected_without_mutation ⟨1000, 7, [("Y", (3, 10))]⟩ "X" 0 5
     (Or.inl rfl)⟩

/-- C9 (amended): `apply_fill` never stores a zero-quantity position — it
preserves the no-zero-entry invariant (the filled symbol is removed when
its quantity reaches zero).  `bulk_load`, by contrast, stores the given
positions verbatim, zero-quantity entries included (see the
counterexample). -/
theorem c9_apply_fill_no_zero_position (s : PortfolioState) (sym : String)
    (q p : ℚ) (hinv : ∀ kv ∈ s.positions, (Prod.snd kv).1 ≠ 0) :
    ∀ kv ∈ (apply_fill s sym q p).1.positions, (Prod.snd kv).1 ≠ 0 := by
  by_cases hq : q = 0
  · simpa [apply_fill, hq] using hinv
  by_cases hp : p ≤ 0
  · simpa [apply_fill, hq, hp] using hinv
  intro kv hkv
  simp only [apply_fill, if_neg hq, if_neg hp] at hkv
  set e := ((alistGet s.positions sym).getD (0, p)).1 with he
  by_cases hz : e + q = 0
  · rw [if_pos hz] at hkv
    exact hinv kv (mem_alistRemove hkv)
  · rw [if_neg hz] at hkv
    by_cases hext : (0 ≤ e ∧ 0 < q) ∨ (e ≤ 0 ∧ q < 0)
    · rw [if_pos hext] at hkv
      rcases mem_alistInsert hkv with hkv | hkv
      · rw [hkv]; exact hz
      · exact hinv kv hkv
    · rw [if_neg hext] at hkv
      rcases mem_alistInsert hkv with hkv | hkv
      · rw [hkv]; exact hz
      · exact hinv kv hkv

theorem c9_witness :
    (∀ kv ∈ (⟨100, 0, [("Y", (3, 10))]⟩ : PortfolioState).positions,
        (Prod.snd kv).1 ≠ 0) ∧
      ∀ kv ∈ (apply_fill ⟨100, 0, [("Y", (3, 10))]⟩ "Y" (-3) 12).1.positions,
        (Prod.snd kv).1 ≠ 0 :=
  ⟨by intro kv hkv; fin_cases hkv; norm_num,
   c9_apply_fill_no_zero_position ⟨100, 0, [("Y", (3, 10))]⟩ "Y" (-3) 12
     (by intro kv hkv; fin_cases hkv; norm_num)⟩

/-- C9 counterexample: `bulk_load` stores a zero-quantity position as a
zero entry, violating the claimed invariant after a ledger-mutating
operation. -/
theorem c9_counterexample_bulk_load_stores_zero :
    ("X", ((0 : ℚ), (50 : ℚ)))
      ∈ (bulk_load ⟨0, 0, []⟩ [⟨"X", 0, 50⟩] (some 500)).positions := by
  simp [bulk_load, alistInsert]

/-- C10: a fill that fully flips a non-zero position (opposite sign,
strictly larger magnitude) keeps the prior average cost on the surviving
reversed position — it does not re-base to the fill price — and realizes
P&L only on the closed portion `|existing|`. -/
theorem c10_full_flip_keeps_average_cost (s : PortfolioState) (sym : String)
    (q p e c : ℚ) (hpos : alistGet s.positions sym = some (e, c)) (he : e ≠ 0)
    (hopp : ¬((0 < e) ↔ (0 < q))) (hmag : |e| < |q|) (hp : 0 < p) :
    alistGet (apply_fill s sym q p).1.positions sym = some (e + q, c) ∧
    (apply_fill s sym q p).1.realized_pnl
      = s.realized_pnl + (p - c) * |e| * (if 0 < e then 1 else -1) := by
  have hq : q ≠ 0 := by
    intro h
    rw [h, abs_zero] at hmag
    exact absurd hmag (not_lt.mpr (abs_nonneg e))
  have hz : e + q ≠ 0 := by
    intro h
    have : q = -e := by linarith
    rw [this, abs_neg] at hmag
    exact lt_irrefl _ hmag
  have hext : ¬((0 ≤ e ∧ 0 < q) ∨ (e ≤ 0 ∧ q < 0)) := by
    rintro (⟨h1, h2⟩ | ⟨h1, h2⟩)
    · exact hopp ⟨fun _ => h2, fun _ => lt_of_le_of_ne h1 (Ne.symm he)⟩
    · exact hopp ⟨fun h3 => absurd h3 (not_lt.mpr h1),
        fun h3 => absurd h3 (not_lt.mpr h2.le)⟩
  have hguard : e ≠ 0 ∧ ¬((0 < e) ↔ (0 < q)) := ⟨he, hopp⟩
  constructor
  · simp only [apply_fill, if_neg hq, if_neg (not_le.mpr hp), hpos,
      Option.getD_some, if_neg hz, if_neg hext]
    exact alistGet_alistInsert s.positions sym (e + q, c)
  · simp only [apply_fill, if_neg hq, if_neg (not_le.mpr hp), hpos,
      Option.getD_some, if_pos hguard]
    rw [min_eq_left hmag.le]

theorem c10_witness :
    (alistGet (⟨0, 0, [("A", (5, 100))]⟩ : PortfolioState).positions "A"
        = some (5, 100) ∧ (5 : ℚ) ≠ 0 ∧ ¬((0 < (5 : ℚ)) ↔ (0 < (-8 : ℚ))) ∧
      |(5 : ℚ)| < |(-8 : ℚ)| ∧ (0 : ℚ) < 110) ∧
    (alistGet (apply_fill ⟨0, 0, [("A", (5, 100))]⟩ "A" (-8) 110).1.positions "A"
        = some (5 + -8, 100) ∧
      (apply_fill ⟨0, 0, [("A", (5, 100))]⟩ "A" (-8) 110).1.realized_pnl
        = 0 + (110 - 100) * |(5 : ℚ)| * (if 0 < (5 : ℚ) then 1 else -1)) :=
  ⟨⟨by norm_num [alistGet], by norm_num, by norm_num, by norm_num, by norm_num⟩,
   c10_full_flip_keeps_average_cost ⟨0, 0, [("A", (5, 100))]⟩ "A" (-8) 110 5 100
     (by norm_num [alistGet]) (by norm_num) (by norm_num) (by norm_num)
     (by norm_num)⟩

/-! ## Message bus (`src/agents/messaging.py`)

The bus never inspects payloads, so the payload is an arbitrary type
parameter.  Handlers are opaque callables in Python; deliveries to them
are modelled as explicit output lists `(subscription id, envelope)`, in
delivery order.  `uuid4` ids are modelled by fresh counters. -/

/-- Unit of delivery and replay (messaging.py `Envelope`/`Message`;
`created_at` and `metadata` play no role in bus logic). -/
structure Envelope (α : Type) where
  id : Nat
  topic : String
  payload : α
  deriving Repr, DecidableEq

/-- A registered subscription (messaging.py lines 30-44). -/
structure Subscription where
  id : Nat
  topics : Option (List String)
  active : Bool
  deriving Repr, DecidableEq

/-- Embeds `Subscription.matches` (messaging.py lines 37-44): inactive never
matches; a `None` filter or a `"*"` entry matches everything; otherwise
explicit membership. -/
def Subscription.matches (sub : Subscription) (topic : String) : Bool :=
  if !sub.active then false
  else
    match sub.topics with
    | none => true
    | some ts => if ts.contains "*" then true else ts.contains topic

/-- Bus state: bounded history ring buffer plus the registration-ordered
subscriber list. -/
structure BusState (α : Type) where
  history : List (Envelope α)
  subs : List Subscription
  nextEnvId : Nat
  nextSubId : Nat
  maxHistory : Nat
  deriving Repr

/-- The last `n` elements of a list (Python `l[-n:]` for `n > 0`, and the
`deque(maxlen=...)` retention rule). -/
def takeRight {β : Type} (n : Nat) (l : List β) : List β :=
  l.drop (l.length - n)

/-- Embeds `MessageBus.publish` (messaging.py lines 55-77): append the envelope
to the bounded history, snapshot the subscriber list, then invoke each
matching handler synchronously in registration order. -/
def publish {α : Type} (s : BusState α) (topic : String) (payload : α) :
    BusState α × Envelope α × List (Nat × Envelope α) :=
  let env : Envelope α := ⟨s.nextEnvId, topic, payload⟩
  let history := takeRight s.maxHistory (s.history ++ [env])
  let deliveries :=
    (s.subs.filter (fun sub => sub.matches topic)).map (fun sub => (sub.id, env))
  ({ s with history := history, nextEnvId := s.nextEnvId + 1 }, env, deliveries)

/-- Embeds `MessageBus.subscribe` (messaging.py lines 79-94): register the
subscription, then — before returning, hence before any later publish can
reach the handler — deliver the matching envelopes among the last
`replay_last` entries of the whole history. -/
def subscribe {α : Type} (s : BusState α) (topics : Option (List String))
    (replay_last : Nat) : BusState α × Subscription × List (Envelope α) :=
  let sub : Subscription := ⟨s.nextSubId, topics, true⟩
  let replayed :=
    if 0 < replay_last then
      (takeRight replay_last s.history).filter (fun env => sub.matches env.topic)
    else []
  ({ s with subs := s.subs ++ [sub], nextSubId := s.nextSubId + 1 }, sub, replayed)

/-- C4 counterexample: with history `a, b, a` and a subscription filtered
to `a`, the history holds `m = 2 ≥ k = 2` matching envelopes, yet
`subscribe` with `replay_last = 2` delivers only one envelope — not the
last 2 matching ones — because the slice `history[-k:]` is taken before
the topic filter is applied. -/
theorem c4_counterexample_replay_slices_before_filtering :
    let s1 := (publish (⟨[], [], 0, 0, 512⟩ : BusState Unit) "a" ()).1
    let s2 := (publish s1 "b" ()).1
    let s3 := (publish s2 "a" ()).1
    let r := subscribe s3 (some ["a"]) 2
    (s3.history.filter (fun e => r.2.1.matches e.topic)).length = 2 ∧
      r.2.2 ≠ takeRight 2 (s3.history.filter (fun e => r.2.1.matches e.topic)) := by
  decide

/-- C4 (amended): subscribing with `replay_last = k > 0` delivers to the
new handler exactly the matching envelopes among the last `k` envelopes
of the whole history — a sublist of the history, hence in publish order —
and only then does live delivery begin: a subsequent publish delivers to
the new subscription exactly the newly published envelope when it
matches, nothing otherwise. -/
theorem c4_replay_then_live (α : Type) (s : BusState α)
    (topics : Option (List String)) (k : Nat) (topic : String) (payload : α)
    (hk : 0 < k) (hfresh : ∀ sub ∈ s.subs, sub.id ≠ s.nextSubId) :
    (subscribe s topics k).2.2
        = (takeRight k s.history).filter
            (fun env => ((subscribe s topics k).2.1).matches env.topic)
    ∧ ((subscribe s topics k).2.2).Sublist s.history
    ∧ (((publish (subscribe s topics k).1 topic payload).2.2.filter
          (fun d => d.1 = (subscribe s topics k).2.1.id)).map (fun d => d.2))
        = (if ((subscribe s topics k).2.1).matches topic
            then [(publish (subscribe s topics k).1 topic payload).2.1] else []) := by
  refine ⟨by simp [subscribe, hk], ?_, ?_⟩
  · have h1 : ((subscribe s topics k).2.2).Sublist (takeRight k s.history) := by
      simp only [subscribe, if_pos hk]
      exact List.filter_sublist _
    exact h1.trans (List.drop_sublist _ _)
  · simp only [subscribe, publish, List.filter_append, List.map_append]
    have hold : ((s.subs.filter
          (fun sub => sub.matches topic)).map
            (fun sub => (sub.id, (⟨s.nextEnvId, topic, payload⟩ : Envelope α)))).filter
          (fun d => d.1 = s.nextSubId) = [] := by
      rw [List.filter_eq_nil_iff]
      intro d hd
      rcases List.mem_map.1 hd with ⟨sub, hsub, rfl⟩
      have hmem : sub ∈ s.subs := List.mem_of_mem_filter hsub
      simpa using hfresh sub hmem
    by_cases hm : (Subscription.mk s.nextSubId topics true).matches topic
    · simp [hm, hold]
    · simp [hm, hold]

theorem c4_witness :
    (0 < 2 ∧ ∀ sub ∈ (⟨[⟨0, "a", ()⟩, ⟨1, "b", ()⟩, ⟨2, "a", ()⟩], [], 3, 0, 512⟩ :
        BusState Unit).subs, sub.id ≠ 0) ∧
    ((subscribe (⟨[⟨0, "a", ()⟩, ⟨1, "b", ()⟩, ⟨2, "a", ()⟩], [], 3, 0, 512⟩ :
          BusState Unit) (some ["a"]) 2).2.2
        = (takeRight 2 (⟨[⟨0, "a", ()⟩, ⟨1, "b", ()⟩, ⟨2, "a", ()⟩], [], 3, 0, 512⟩ :
            BusState Unit).history).filter
            (fun env => ((subscribe (⟨[⟨0, "a", ()⟩, ⟨1, "b", ()⟩, ⟨2, "a", ()⟩], [], 3, 0, 512⟩ :
              BusState Unit) (some ["a"]) 2).2.1).matches env.topic)
    ∧ ((subscribe (⟨[⟨0, "a", ()⟩, ⟨1, "b", ()⟩, ⟨2, "a", ()⟩], [], 3, 0, 512⟩ :
          BusState Unit) (some ["a"]) 2).2.2).Sublist
        (⟨[⟨0, "a", ()⟩, ⟨1, "b", ()⟩, ⟨2, "a", ()⟩], [], 3, 0, 512⟩ :
          BusState Unit).history
    ∧ (((publish (subscribe (⟨[⟨0, "a", ()⟩, ⟨1, "b", ()⟩, ⟨2, "a", ()⟩], [], 3, 0, 512⟩ :
            BusState Unit) (some ["a"]) 2).1 "a" ()).2.2.filter
          (fun d => d.1 = (subscribe (⟨[⟨0, "a", ()⟩, ⟨1, "b", ()⟩, ⟨2, "a", ()⟩], [], 3, 0, 512⟩ :
            BusState Unit) (some ["a"]) 2).2.1.id)).map (fun d => d.2))
        = (if ((subscribe (⟨[⟨0, "a", ()⟩, ⟨1, "b", ()⟩, ⟨2, "a", ()⟩], [], 3, 0, 512⟩ :
              BusState Unit) (some ["a"]) 2).2.1).matches "a"
            then [(publish (subscribe (⟨[⟨0, "a", ()⟩, ⟨1, "b", ()⟩, ⟨2, "a", ()⟩], [], 3, 0, 512⟩ :
              BusState Unit) (some ["a"]) 2).1 "a" ()).2.1] else [])) :=
  ⟨⟨Nat.zero_lt_succ 1, by intro sub hsub; simp at hsub⟩,
   c4_replay_then_live Unit _ (some ["a"]) 2 "a" ()
     (Nat.zero_lt_succ 1) (by intro sub hsub; simp at hsub)⟩

/-! ## Strategy-council consensus (`src/agents/impl/quant.py`) -/

/-- A decision emitted by one strategy evaluator. -/
structure StrategyDecision where
  strategy : String
  action : String
  quantity : ℚ
  confidence : ℚ
  deriving Repr, DecidableEq

/-- One `aggregates[action]` entry of `_build_consensus`. -/
structure AggEntry where
  weight : ℚ
  count : Nat
  decisions : List StrategyDecision
  deriving Repr, DecidableEq

/-- Python builtin `round` with no digits: round-half-to-even. -/
def pythonRound (q : ℚ) : ℤ :=
  let f := ⌊q⌋
  let r := q - f
  if r < 1 / 2 then f
  else if 1 / 2 < r then f + 1
  else if f % 2 = 0 then f else f + 1

/-- The grouping loop of `_build_consensus` (quant.py lines 199-208):
group decisions by action in first-seen order, accumulating
`weight_sum = Σ max(0, weight) * max(0, confidence)` and the count.
A strategy missing from the weights map defaults to weight 1.0. -/
def build_aggregates (weights : List (String × ℚ))
    (decisions : List StrategyDecision) : List (String × AggEntry) :=
  decisions.foldl
    (fun acc d =>
      let w := max 0 ((alistGet weights d.strategy).getD 1)
      let support := w * max 0 d.confidence
      match alistGet acc d.action with
      | some e =>
          alistInsert acc d.action ⟨e.weight + support, e.count + 1, e.decisions ++ [d]⟩
      | none => alistInsert acc d.action ⟨support, 1, [d]⟩)
    []

/-- Python `max(aggregates.items(), key=(weight, count))` (quant.py lines
211-213): the first entry with the lexicographically greatest key wins;
ties keep the earlier entry. -/
def best_action (l : List (String × AggEntry)) : Option (String × AggEntry) :=
  match l with
  | [] => none
  | x :: xs =>
      some (xs.foldl
        (fun best e =>
          if best.2.weight < e.2.weight ∨
              (best.2.weight = e.2.weight ∧ best.2.count < e.2.count)
          then e else best) x)

/-- The consensus proposal payload (the fields the gating logic computes;
`proposal_id`, timestamps and the per-strategy echo list are bookkeeping). -/
structure ConsensusProposal where
  symbol : String
  price : ℚ
  action : String
  quantity : ℤ
  confidence : ℚ
  count : Nat
  weight : ℚ
  deriving Repr, DecidableEq

/-- Embeds `StrategyCouncilAgent._build_consensus` (quant.py lines 192-252):
suppress unless the winning action has `count ≥ min_support` or
`weight_sum ≥ weight_threshold`; quantity is the rounded mean absolute
quantity (zero suppresses), negated for `sell`; confidence is
`min(1.0, weight_sum)`. -/
def build_consensus (weights : List (String × ℚ)) (min_support : Nat)
    (weight_threshold : ℚ) (symbol : String) (price : ℚ)
    (decisions : List StrategyDecision) : Option ConsensusProposal :=
  match best_action (build_aggregates weights decisions) with
  | none => none
  | some (action, stats) =>
      if stats.count < min_support ∧ stats.weight < weight_threshold then none
      else
        let avg_qty := (stats.decisions.map (fun d => |d.quantity|)).sum / (stats.count : ℚ)
        let quantity : ℤ := max 0 (pythonRound avg_qty)
        if quantity ≤ 0 then none
        else
          some ⟨symbol, price, action,
            if action = "sell" then -quantity else quantity,
            min 1 stats.weight, stats.count, stats.weight⟩

/-- C6: under default weights (1.0) and default gates
(`min_support = 2`, `weight_threshold = 0.6`): two strategies voting buy
at confidence 0.8 produce a buy proposal (given a positive rounded mean
quantity), while one buy at 0.3 against one sell at 0.3 is suppressed
(winning group has count 1 < 2 and weight 0.3 < 0.6). -/
theorem c6_consensus_gating (q1 q2 q3 q4 : ℚ)
    (hq : 0 < pythonRound ((|q1| + |q2|) / 2)) :
    (∃ prop : ConsensusProposal,
        build_consensus [] 2 (3 / 5) "SPY" 100
            [⟨"s1", "buy", q1, 4 / 5⟩, ⟨"s2", "buy", q2, 4 / 5⟩] = some prop ∧
          prop.action = "buy" ∧ 0 < prop.quantity)
    ∧ build_consensus [] 2 (3 / 5) "SPY" 100
        [⟨"s1", "buy", q3, 3 / 10⟩, ⟨"s2", "sell", q4, 3 / 10⟩] = none := by
  have hbs : ("buy" : String) = "sell" ↔ False := by
    constructor
    · intro h; exact absurd h (by decide)
    · exact False.elim
  constructor
  · have hmax : max 0 (pythonRound ((|q1| + |q2|) / 2))
        = pythonRound ((|q1| + |q2|) / 2) := max_eq_right hq.le
    refine ⟨⟨"SPY", 100, "buy", pythonRound ((|q1| + |q2|) / 2),
      min 1 (4 / 5 + 4 / 5), 2, 4 / 5 + 4 / 5⟩, ?_, rfl, hq⟩
    simp only [build_consensus, build_aggregates, best_action, alistGet,
      alistInsert, List.foldl]
    norm_num [hbs, hmax, not_le.mpr hq]
  · simp only [build_consensus, build_aggregates, best_action, alistGet,
      alistInsert, List.foldl]
    norm_num [hbs]

theorem c6_witness :
    (0 < pythonRound ((|(10 : ℚ)| + |(10 : ℚ)|) / 2)) ∧
      ((∃ prop : ConsensusProposal,
          build_consensus [] 2 (3 / 5) "SPY" 100
              [⟨"s1", "buy", 10, 4 / 5⟩, ⟨"s2", "buy", 10, 4 / 5⟩] = some prop ∧
            prop.action = "buy" ∧ 0 < prop.quantity)
      ∧ build_consensus [] 2 (3 / 5) "SPY" 100
          [⟨"s1", "buy", 7, 3 / 10⟩, ⟨"s2", "sell", 7, 3 / 10⟩] = none) :=
  ⟨by norm_num [pythonRound],
   c6_consensus_gating 10 10 7 7 (by norm_num [pythonRound])⟩

/-! ## Stop-loss latch (`src/agents/impl/risk.py` lines 344-373) -/

/-- Python `set.add`. -/
def setAdd (s : List String) (x : String) : List String :=
  if x ∈ s then s else x :: s

/-- Python `set.discard`. -/
def setDiscard (s : List String) (x : String) : List String :=
  s.filter (fun y => y != x)

/-- One call to `_check_stop_loss` for a symbol: the latest price and the
portfolio snapshot entry `(quantity, average_cost)` for that symbol (or
`none` when the position is absent). -/
structure StopLossObs where
  price : ℚ
  position : Option (ℚ × ℚ)
  deriving Repr, DecidableEq

/-- Embeds `RiskAgent._check_stop_loss`: closed/absent positions clear the
latch; a move against entry beyond `stop_loss_pct` emits once and
latches; a recovered price clears the latch.  Returns the updated
`_active_stop_losses` set and whether a stop-loss event was emitted. -/
def check_stop_loss (stop_loss_pct : ℚ) (active : List String)
    (symbol : String) (price : ℚ) (position : Option (ℚ × ℚ)) :
    List String × Bool :=
  match position with
  | none => (setDiscard active symbol, false)
  | some (qty, avg_cost) =>
      if qty = 0 then (setDiscard active symbol, false)
      else
        let direction : ℚ := if 0 < qty then 1 else -1
        if avg_cost ≤ 0 then (active, false)
        else
          let move_pct := ((price - avg_cost) / avg_cost) * 100 * direction
          if move_pct ≤ -(stop_loss_pct * 100) then
            if symbol ∈ active then (active, false)
            else (setAdd active symbol, true)
          else (setDiscard active symbol, false)

/-- Iterate `_check_stop_loss` over a sequence of market observations for
one symbol, counting emitted stop-loss events. -/
def run_stop_loss (pct : ℚ) (symbol : String) :
    List String → List StopLossObs → List String × Nat
  | active, [] => (active, 0)
  | active, ob :: rest =>
      let r := check_stop_loss pct active symbol ob.price ob.position
      let rr := run_stop_loss pct symbol r.1 rest
      (rr.1, (if r.2 then 1 else 0) + rr.2)

/-- The observation breaches the stop-loss threshold (the emitting branch
condition of `_check_stop_loss`). -/
def breaches (pct : ℚ) (ob : StopLossObs) : Bool :=
  match ob.position with
  | none => false
  | some (qty, avg_cost) =>
      decide (qty ≠ 0) && decide (0 < avg_cost) &&
        decide (((ob.price - avg_cost) / avg_cost) * 100
            * (if 0 < qty then 1 else -1) ≤ -(pct * 100))

/-- The observation clears the latch: the position is closed/absent or
the adverse move is back inside the threshold. -/
def clears (pct : ℚ) (ob : StopLossObs) : Bool :=
  match ob.position with
  | none => true
  | some (qty, avg_cost) =>
      decide (qty = 0) ||
        (decide (0 < avg_cost) &&
          decide (-(pct * 100) < ((ob.price - avg_cost) / avg_cost) * 100
              * (if 0 < qty then 1 else -1)))

theorem mem_setAdd_self (s : List String) (x : String) : x ∈ setAdd s x := by
  unfold setAdd
  split
  · assumption
  · exact List.mem_cons_self x s

theorem not_mem_setDiscard (s : List String) (x : String) :
    x ∉ setDiscard s x := by
  intro h
  have := (List.mem_filter.1 h).2
  simp at this

theorem check_stop_loss_latched (pct : ℚ) (active : List String)
    (symbol : String) (ob : StopLossObs) (hb : breaches pct ob = true)
    (hm : symbol ∈ active) :
    check_stop_loss pct active symbol ob.price ob.position = (active, false) := by
  rcases hpos : ob.position with _ | ⟨qty, avg_cost⟩
  · rw [breaches, hpos] at hb; cases hb
  · rw [breaches, hpos] at hb
    simp only [Bool.and_eq_true, decide_eq_true_eq] at hb
    obtain ⟨⟨hq, hc⟩, hmv⟩ := hb
    simp only [check_stop_loss, hpos]
    rw [if_neg hq, if_neg (not_le.mpr hc), if_pos hmv, if_pos hm]

theorem check_stop_loss_fires (pct : ℚ) (active : List String)
    (symbol : String) (ob : StopLossObs) (hb : breaches pct ob = true)
    (hm : symbol ∉ active) :
    check_stop_loss pct active symbol ob.price ob.position
      = (setAdd active symbol, true) := by
  rcases hpos : ob.position with _ | ⟨qty, avg_cost⟩
  · rw [breaches, hpos] at hb; cases hb
  · rw [breaches, hpos] at hb
    simp only [Bool.and_eq_true, decide_eq_true_eq] at hb
    obtain ⟨⟨hq, hc⟩, hmv⟩ := hb
    simp only [check_stop_loss, hpos]
    rw [if_neg hq, if_neg (not_le.mpr hc), if_pos hmv, if_neg hm]

theorem check_stop_loss_clears (pct : ℚ) (active : List String)
    (symbol : String) (ob : StopLossObs) (hcl : clears pct ob = true) :
    check_stop_loss pct active symbol ob.price ob.position
      = (setDiscard active symbol, false) := by
  rcases hpos : ob.position with _ | ⟨qty, avg_cost⟩
  · simp only [check_stop_loss, hpos]
  · rw [clears, hpos] at hcl
    simp only [Bool.or_eq_true, Bool.and_eq_true, decide_eq_true_eq] at hcl
    rcases hcl with hq | ⟨hc, hmv⟩
    · simp only [check_stop_loss, hpos]
      rw [if_pos hq]
    · by_cases hq : qty = 0
      · simp only [check_stop_loss, hpos]
        rw [if_pos hq]
      · simp only [check_stop_loss, hpos]
        rw [if_neg hq, if_neg (not_le.mpr hc), if_neg (not_le.mpr hmv)]

/-- While latched, an all-breaching run emits nothing and leaves the set
untouched. -/
theorem run_stop_loss_latched (pct : ℚ) (symbol : String)
    (obs : List StopLossObs) :
    ∀ active, (∀ ob ∈ obs, breaches pct ob = true) → symbol ∈ active →
      run_stop_loss pct symbol active obs = (active, 0) := by
  induction obs with
  | nil => intro active _ _; rfl
  | cons ob rest ih =>
    intro active hb hm
    have hstep := check_stop_loss_latched pct active symbol ob
      (hb ob (List.mem_cons_self ob rest)) hm
    simp only [run_stop_loss, hstep]
    rw [ih active (fun o ho => hb o (List.mem_cons_of_mem ob ho)) hm]
    simp

/-- An all-breaching episode entered unlatched emits exactly one event
and ends latched. -/
theorem run_stop_loss_episode (pct : ℚ) (symbol : String)
    (obs : List StopLossObs) (active : List String)
    (hb : ∀ ob ∈ obs, breaches pct ob = true) (hne : obs ≠ [])
    (hm : symbol ∉ active) :
    run_stop_loss pct symbol active obs = (setAdd active symbol, 1) := by
  rcases obs with _ | ⟨ob, rest⟩
  · exact absurd rfl hne
  · have hstep := check_stop_loss_fires pct active symbol ob
      (hb ob (List.mem_cons_self ob rest)) hm
    simp only [run_stop_loss, hstep]
    rw [run_stop_loss_latched pct symbol rest (setAdd active symbol)
      (fun o ho => hb o (List.mem_cons_of_mem ob ho)) (mem_setAdd_self active symbol)]
    simp

theorem run_stop_loss_append (pct : ℚ) (symbol : String)
    (l1 l2 : List StopLossObs) :
    ∀ active, run_stop_loss pct symbol active (l1 ++ l2)
      = ((run_stop_loss pct symbol
            (run_stop_loss pct symbol active l1).1 l2).1,
         (run_stop_loss pct symbol active l1).2
           + (run_stop_loss pct symbol
              (run_stop_loss pct symbol active l1).1 l2).2) := by
  induction l1 with
  | nil => intro active; simp [run_stop_loss]
  | cons ob rest ih =>
    intro active
    simp only [List.cons_append, run_stop_loss, List.append_eq]
    rw [ih]
    simp [Nat.add_assoc]

/-- C7: with the latch initially clear, an episode of consecutive
breaching observations emits exactly one stop-loss event (no repeat while
the breach persists); a clearing observation (position closed/absent or
price back inside the threshold) resets the latch without emitting; and a
following second breach episode emits exactly one more event. -/
theorem c7_stop_loss_once_per_breach_episode (pct : ℚ) (symbol : String)
    (active : List String) (ep1 ep2 : List StopLossObs) (mid : StopLossObs)
    (h0 : symbol ∉ active)
    (h1 : ∀ ob ∈ ep1, breaches pct ob = true) (hne1 : ep1 ≠ [])
    (hm : clears pct mid = true)
    (h2 : ∀ ob ∈ ep2, breaches pct ob = true) (hne2 : ep2 ≠ []) :
    (run_stop_loss pct symbol active ep1).2 = 1 ∧
    (run_stop_loss pct symbol active (ep1 ++ [mid])).2 = 1 ∧
    (run_stop_loss pct symbol active (ep1 ++ mid :: ep2)).2 = 2 := by
  have e1 := run_stop_loss_episode pct symbol ep1 active h1 hne1 h0
  have hmidstep := check_stop_loss_clears pct (setAdd active symbol) symbol mid hm
  have e2 := run_stop_loss_episode pct symbol ep2
    (setDiscard (setAdd active symbol) symbol) h2 hne2
    (not_mem_setDiscard _ symbol)
  refine ⟨by rw [e1], ?_, ?_⟩
  · rw [run_stop_loss_append pct symbol ep1 [mid] active, e1]
    simp [run_stop_loss, hmidstep]
  · rw [run_stop_loss_append pct symbol ep1 (mid :: ep2) active, e1]
    simp only [run_stop_loss, hmidstep]
    rw [e2]
    simp

theorem c7_witness :
    (("SPY" : String) ∉ ([] : List String) ∧
      (∀ ob ∈ [(⟨90, some (10, 100)⟩ : StopLossObs)], breaches (2 / 25) ob = true) ∧
      ([(⟨90, some (10, 100)⟩ : StopLossObs)] ≠ []) ∧
      clears (2 / 25) (⟨91, none⟩ : StopLossObs) = true ∧
      (∀ ob ∈ [(⟨46, some (5, 50)⟩ : StopLossObs)], breaches (2 / 25) ob = true) ∧
      ([(⟨46, some (5, 50)⟩ : StopLossObs)] ≠ [])) ∧
    ((run_stop_loss (2 / 25) "SPY" []
        [(⟨90, some (10, 100)⟩ : StopLossObs)]).2 = 1 ∧
      (run_stop_loss (2 / 25) "SPY" []
        ([(⟨90, some (10, 100)⟩ : StopLossObs)] ++ [⟨91, none⟩])).2 = 1 ∧
      (run_stop_loss (2 / 25) "SPY" []
        ([(⟨90, some (10, 100)⟩ : StopLossObs)]
          ++ (⟨91, none⟩ : StopLossObs) :: [(⟨46, some (5, 50)⟩ : StopLossObs)])).2
        = 2) :=
  ⟨⟨by simp, by intro ob hob; fin_cases hob; norm_num [breaches], by simp,
    by norm_num [clears], by intro ob hob; fin_cases hob; norm_num [breaches],
    by simp⟩,
   c7_stop_loss_once_per_breach_episode (2 / 25) "SPY" []
     [⟨90, some (10, 100)⟩] [⟨46, some (5, 50)⟩] ⟨91, none⟩
     (by simp) (by intro ob hob; fin_cases hob; norm_num [breaches]) (by simp)
     (by norm_num [clears]) (by intro ob hob; fin_cases hob; norm_num [breaches])
     (by simp)⟩

/-! ## Risk proposal evaluation (`src/agents/impl/risk.py` lines 117-196) -/

/-- The risk parameters read from the environment in `RiskAgent.__init__`
(risk.py lines 49-57); `var_zscore` is the z-table value for the
configured confidence (1.65 for the default 0.95). -/
structure RiskConfig where
  max_position_pct : ℚ
  max_var_pct : ℚ
  var_lookback : Nat
  var_zscore : ℚ
  max_leverage : ℚ
  deriving Repr, DecidableEq

/-- The documented defaults: `RISK_MAX_POSITION_PCT = 0.1`,
`RISK_MAX_VAR_PCT = 0.04`, `RISK_VAR_LOOKBACK = 20`, z(0.95) = 1.65,
`RISK_MAX_GROSS_LEVERAGE = 1.2`. -/
def defaultRiskConfig : RiskConfig :=
  ⟨1 / 10, 1 / 25, 20, 33 / 20, 6 / 5⟩

/-- Embeds `RiskAgent._build_exposure_table`: per-symbol `quantity * price`,
marking at the latest seen price and falling back to average cost. -/
def build_exposure_table (snapshot : PortfolioState)
    (latest_prices : List (String × ℚ)) : List (String × ℚ) :=
  snapshot.positions.map
    (fun kv => (kv.1, kv.2.1 * ((alistGet latest_prices kv.1).getD kv.2.2)))

/-- Embeds `RiskAgent._nav_from_snapshot`: cash plus the signed exposures. -/
def nav_from_snapshot (snapshot : PortfolioState)
    (latest_prices : List (String × ℚ)) : ℚ :=
  snapshot.cash
    + ((build_exposure_table snapshot latest_prices).map (fun kv => kv.2)).sum

/-- The projected exposure table of `_handle_proposal` (risk.py lines
127-129): current exposures with `quantity * price` added to the
symbol of the proposal. -/
def projected_exposures (snapshot : PortfolioState)
    (latest_prices : List (String × ℚ)) (symbol : String)
    (quantity price : ℚ) : List (String × ℚ) :=
  let exposures := build_exposure_table snapshot latest_prices
  alistInsert exposures symbol
    ((alistGet exposures symbol).getD 0 + quantity * price)

/-- Gross exposure: `Σ |exposure|`. -/
def gross_exposure (exposures : List (String × ℚ)) : ℚ :=
  (exposures.map (fun kv => |kv.2|)).sum

/-- Embeds `RiskAgent._symbol_returns`: simple returns over the last
`var_lookback + 1` prices of the rolling history for the symbol, skipping
zero-price predecessors. -/
def symbol_returns (lookback : Nat) (history : List (String × List ℚ))
    (symbol : String) : List ℚ :=
  match alistGet history symbol with
  | none => []
  | some values =>
      if values.length < 2 then []
      else
        let tail := takeRight (min values.length (lookback + 1)) values
        (tail.zip tail.tail).filterMap
          (fun pc => if pc.1 ≠ 0 then some ((pc.2 - pc.1) / pc.1) else none)

/-- Embeds `statistics.pvariance`: population variance. -/
def pvariance (xs : List ℚ) : ℚ :=
  let n : ℚ := xs.length
  let mu := xs.sum / n
  ((xs.map (fun x => (x - mu) ^ 2)).sum) / n

/-- The variance accumulated by `_estimate_portfolio_var` (risk.py lines
269-291): `Σ weight² * pvariance(returns)` over symbols with at least two
returns, with `weight = exposure / max(nav, 1)` (no cross-covariance). -/
def portfolio_variance (cfg : RiskConfig) (history : List (String × List ℚ))
    (nav : ℚ) (exposures : List (String × ℚ)) : ℚ :=
  let safe_nav := max nav 1
  (exposures.map (fun kv =>
    let weight := kv.2 / safe_nav
    let returns := symbol_returns cfg.var_lookback history kv.1
    if returns.length < 2 then 0 else weight ^ 2 * pvariance returns)).sum

/-- The check `var_pct > max_var_pct` of risk.py line 159, where
`var_pct = z * sqrt(variance)` for `variance > 0` and `0` otherwise
(lines 287-291).  The square root is irrational, so the comparison is
encoded by the exactly equivalent rational test: for `variance > 0` and
the (always positive) z-table value,
`z * sqrt(variance) > m ↔ m < 0 ∨ (0 ≤ m ∧ m² < z² * variance)`. -/
def var_limit_exceeded (cfg : RiskConfig) (variance : ℚ) : Bool :=
  if variance ≤ 0 then decide (cfg.max_var_pct < 0)
  else
    decide (cfg.max_var_pct < 0) ||
      (decide (0 ≤ cfg.max_var_pct) &&
        decide (cfg.max_var_pct ^ 2 < cfg.var_zscore ^ 2 * variance))

/-- The approval payload published on `risk.approval` (risk.py lines
167-187); `variance` stands for the VaR estimate
(`var_pct = z·√variance`, `var_amount = var_pct · max(nav,1)`). -/
structure RiskApproval where
  proposal_id : String
  symbol : String
  price : ℚ
  quantity : ℚ
  risk_limit : ℚ
  nav : ℚ
  gross_exposure : ℚ
  leverage : ℚ
  variance : ℚ
  deriving Repr, DecidableEq

/-- Observable effects of one `_handle_proposal` call: bus topics
published, audit record actions, alert actions, the approval payload (if
any) and the rejection reason (if any). -/
structure RiskResult where
  busTopics : List String
  audits : List String
  alerts : List String
  approval : Option RiskApproval
  reject_reason : Option String
  deriving Repr, DecidableEq

/-- Embeds `RiskAgent._handle_proposal` (risk.py lines 117-196), from the point
where the payload has parsed (symbol/price/quantity/proposal_id present;
malformed payloads are silently dropped before this logic).  Checks, in
order: notional against `max(1, cash * max_position_pct)`, projected
gross leverage against `max_leverage`, estimated VaR against
`max_var_pct`; approves otherwise. -/
def handle_proposal (cfg : RiskConfig) (snapshot : PortfolioState)
    (latest_prices : List (String × ℚ)) (history : List (String × List ℚ))
    (proposal_id symbol : String) (price quantity : ℚ) : RiskResult :=
  let projected := projected_exposures snapshot latest_prices symbol quantity price
  let nav := nav_from_snapshot snapshot latest_prices
  let gross := gross_exposure projected
  let leverage := gross / max nav 1
  let notional := |quantity * price|
  let limit := max 1 (snapshot.cash * cfg.max_position_pct)
  if limit < notional then
    ⟨[], ["risk_reject"], ["risk_reject"], none, some "notional_limit"⟩
  else if cfg.max_leverage < leverage then
    ⟨[], ["risk_reject"], ["risk_reject"], none, some "gross_leverage_limit"⟩
  else
    let variance := portfolio_variance cfg history nav projected
    if var_limit_exceeded cfg variance then
      ⟨[], ["risk_reject"], ["risk_reject"], none, some "var_limit"⟩
    else
      ⟨["risk.approval"], [], [],
        some ⟨proposal_id, symbol, price, quantity, limit, nav, gross,
          leverage, variance⟩,
        none⟩

/-- C5 counterexample: with cash 5 and the default
`max_position_pct = 0.1`, a proposal of notional 0.8 exceeds
`cash * max_position_pct = 0.5` yet is approved, because the code clamps
the limit to `max(1.0, cash * max_position_pct)` (risk.py line 134). -/
theorem c5_counterexample_notional_limit_clamped :
    (⟨5, 0, []⟩ : PortfolioState).cash * defaultRiskConfig.max_position_pct
        < |(1 : ℚ) * (4 / 5)| ∧
    (handle_proposal defaultRiskConfig ⟨5, 0, []⟩ [] [] "p1" "SPY" (4 / 5) 1).approval.isSome
        = true ∧
    (handle_proposal defaultRiskConfig ⟨5, 0, []⟩ [] [] "p1" "SPY" (4 / 5) 1).reject_reason
        = none := by
  refine ⟨by norm_num [defaultRiskConfig, abs_of_nonneg], ?_, ?_⟩ <;>
    norm_num [handle_proposal, defaultRiskConfig, projected_exposures,
      build_exposure_table, nav_from_snapshot, gross_exposure, alistGet,
      alistInsert, portfolio_variance, symbol_returns, var_limit_exceeded,
      abs_of_nonneg]

/-- C5 (amended): a proposal whose notional exceeds
`max(1, cash * max_position_pct)` is rejected with reason
`notional_limit` and publishes no approval event; a proposal within that
limit that also passes the leverage and VaR checks is approved, and the
approval payload carries the computed nav, gross exposure, leverage and
VaR estimate. -/
theorem c5_notional_gate_and_approval_metrics (cfg : RiskConfig)
    (snapshot : PortfolioState) (latest_prices : List (String × ℚ))
    (history : List (String × List ℚ)) (proposal_id symbol : String)
    (price quantity : ℚ) :
    (max 1 (snapshot.cash * cfg.max_position_pct) < |quantity * price| →
      handle_proposal cfg snapshot latest_prices history proposal_id symbol
          price quantity
        = ⟨[], ["risk_reject"], ["risk_reject"], none, some "notional_limit"⟩)
    ∧ (|quantity * price| ≤ max 1 (snapshot.cash * cfg.max_position_pct) →
       gross_exposure (projected_exposures snapshot latest_prices symbol
           quantity price)
           / max (nav_from_snapshot snapshot latest_prices) 1
         ≤ cfg.max_leverage →
       var_limit_exceeded cfg
           (portfolio_variance cfg history
             (nav_from_snapshot snapshot latest_prices)
             (projected_exposures snapshot latest_prices symbol quantity price))
         = false →
       handle_proposal cfg snapshot latest_prices history proposal_id symbol
           price quantity
         = ⟨["risk.approval"], [], [],
             some ⟨proposal_id, symbol, price, quantity,
               max 1 (snapshot.cash * cfg.max_position_pct),
               nav_from_snapshot snapshot latest_prices,
               gross_exposure (projected_exposures snapshot latest_prices
                 symbol quantity price),
               gross_exposure (projected_exposures snapshot latest_prices
                   symbol quantity price)
                 / max (nav_from_snapshot snapshot latest_prices) 1,
               portfolio_variance cfg history
                 (nav_from_snapshot snapshot latest_prices)
                 (projected_exposures snapshot latest_prices symbol quantity
                   price)⟩,
             none⟩) := by
  constructor
  · intro h
    simp only [handle_proposal]
    rw [if_pos h]
  · intro h1 h2 h3
    simp only [handle_proposal]
    rw [if_neg (not_lt.mpr h1), if_neg (not_lt.mpr h2), if_neg (by simp [h3])]

theorem c5_witness :
    ((max 1 ((100000 : ℚ) * defaultRiskConfig.max_position_pct) < |(150 : ℚ) * 100|)
    ∧ handle_proposal defaultRiskConfig ⟨100000, 0, []⟩ [] [] "p9" "QQQ" 100 150
        = ⟨[], ["risk_reject"], ["risk_reject"], none, some "notional_limit"⟩)
    ∧ ((|(10 : ℚ) * 100| ≤ max 1 ((100000 : ℚ) * defaultRiskConfig.max_position_pct)
      ∧ gross_exposure (projected_exposures ⟨100000, 0, []⟩ [] "SPY" 10 100)
          / max (nav_from_snapshot ⟨100000, 0, []⟩ []) 1
        ≤ defaultRiskConfig.max_leverage
      ∧ var_limit_exceeded defaultRiskConfig
          (portfolio_variance defaultRiskConfig []
            (nav_from_snapshot ⟨100000, 0, []⟩ [])
            (projected_exposures ⟨100000, 0, []⟩ [] "SPY" 10 100)) = false)
    ∧ handle_proposal defaultRiskConfig ⟨100000, 0, []⟩ [] [] "p1" "SPY" 100 10
        = ⟨["risk.approval"], [], [],
            some ⟨"p1", "SPY", 100, 10,
              max 1 ((100000 : ℚ) * defaultRiskConfig.max_position_pct),
              nav_from_snapshot ⟨100000, 0, []⟩ [],
              gross_exposure (projected_exposures ⟨100000, 0, []⟩ [] "SPY" 10 100),
              gross_exposure (projected_exposures ⟨100000, 0, []⟩ [] "SPY" 10 100)
                / max (nav_from_snapshot ⟨100000, 0, []⟩ []) 1,
              portfolio_variance defaultRiskConfig []
                (nav_from_snapshot ⟨100000, 0, []⟩ [])
                (projected_exposures ⟨100000, 0, []⟩ [] "SPY" 10 100)⟩,
            none⟩) :=
  have hA : |(10 : ℚ) * 100| ≤ max 1 ((100000 : ℚ) * defaultRiskConfig.max_position_pct) := by
    norm_num [defaultRiskConfig]
  have hB : gross_exposure (projected_exposures ⟨100000, 0, []⟩ [] "SPY" 10 100)
      / max (nav_from_snapshot ⟨100000, 0, []⟩ []) 1 ≤ defaultRiskConfig.max_leverage := by
    norm_num [defaultRiskConfig, gross_exposure, projected_exposures,
      build_exposure_table, nav_from_snapshot, alistGet, alistInsert]
  have hC : var_limit_exceeded defaultRiskConfig
      (portfolio_variance defaultRiskConfig []
        (nav_from_snapshot ⟨100000, 0, []⟩ [])
        (projected_exposures ⟨100000, 0, []⟩ [] "SPY" 10 100)) = false := by
    norm_num [defaultRiskConfig, var_limit_exceeded, portfolio_variance,
      symbol_returns, projected_exposures, build_exposure_table,
      nav_from_snapshot, alistGet, alistInsert]
  have hN : max 1 ((100000 : ℚ) * defaultRiskConfig.max_position_pct)
      < |(150 : ℚ) * 100| := by
    norm_num [defaultRiskConfig, abs_of_nonneg]
  ⟨⟨hN,
    (c5_notional_gate_and_approval_metrics defaultRiskConfig ⟨100000, 0, []⟩
       [] [] "p9" "QQQ" 100 150).1 hN⟩,
   ⟨⟨hA, hB, hC⟩,
    (c5_notional_gate_and_approval_metrics defaultRiskConfig ⟨100000, 0, []⟩
       [] [] "p1" "SPY" 100 10).2 hA hB hC⟩⟩

/-! ## Compliance gate (`src/agents/impl/compliance.py`) -/

/-- Compliance parameters from `ComplianceAgent.__init__` (compliance.py
lines 41-55). -/
structure ComplianceConfig where
  restricted : List String
  max_position_pct : ℚ
  prohibited_keywords : List String
  insider_flags : List String
  deriving Repr, DecidableEq

/-- Defaults: empty restricted list, `COMPLIANCE_MAX_POSITION_PCT = 0.2`,
the default prohibited-tactic keywords, and the three insider flags
(a Python set; order is irrelevant to the claims proved here). -/
def defaultComplianceConfig : ComplianceConfig :=
  ⟨[], 1 / 5,
    ["spoofing", "layering", "insider", "pump-and-dump", "pump_and_dump",
      "front_running"],
    ["insider_signal", "mnpi_flag", "material_non_public"]⟩

/-- Embeds `ComplianceAgent._detect_prohibited_behavior` (compliance.py lines
126-134).  The recursive text extraction over the dynamic payload
(`_extract_text_tokens`/`_normalize_field`) is represented by the list of
lowercased text tokens it yields, and the boolean insider indicators by
the list of flags that are present and truthy. -/
def detect_prohibited_behavior (cfg : ComplianceConfig)
    (text_tokens truthy_flags : List String) : Option String :=
  match cfg.prohibited_keywords.find?
      (fun k => !(k == "") && text_tokens.any (fun t => decide (k.data <:+: t.data))) with
  | some k => some ("prohibited_tactic:" ++ k)
  | none =>
      match cfg.insider_flags.find? (fun f => truthy_flags.contains f) with
      | some f => some ("insider_indicator:" ++ f)
      | none => none

/-- Observable effects of one `_handle_risk_approval` call; `approval`
carries the projected post-trade quantity attached to the forwarded
approval. -/
structure ComplianceResult where
  busTopics : List String
  audits : List String
  alerts : List String
  approval : Option ℚ
  reject_reason : Option String
  deriving Repr, DecidableEq

/-- Embeds `ComplianceAgent._handle_risk_approval` (compliance.py lines 70-124),
from the point where the payload has parsed.  Order: restricted list,
prohibited behavior (which also broadcasts `compliance.kill_switch`),
projected concentration against `max_position_pct`; approves otherwise. -/
def handle_risk_approval (cfg : ComplianceConfig) (snapshot : PortfolioState)
    (symbol : String) (price quantity : ℚ)
    (text_tokens truthy_flags : List String) : ComplianceResult :=
  if cfg.restricted.contains symbol then
    ⟨[], ["compliance_reject"], ["compliance_reject"], none,
      some "restricted_symbol"⟩
  else
    match detect_prohibited_behavior cfg text_tokens truthy_flags with
    | some reason =>
        ⟨["compliance.kill_switch"], ["compliance_reject"],
          ["compliance_reject"], none, some reason⟩
    | none =>
        let current_qty := ((alistGet snapshot.positions symbol).map
          (fun pr => pr.1)).getD 0
        let projected_qty := current_qty + quantity
        let projected_notional := |projected_qty * price|
        let nav := max (snapshot.cash
          + (snapshot.positions.map (fun kv => |kv.2.1 * kv.2.2|)).sum) 1
        if cfg.max_position_pct < projected_notional / nav then
          ⟨[], ["compliance_reject"], ["compliance_reject"], none,
            some "concentration_limit"⟩
        else
          ⟨["compliance.approval"], [], [], some projected_qty, none⟩

/-- C8 counterexample: a proposal rejected by the risk notional rule
produces an audit record and an alert, but publishes no reject event on
the bus (risk.py lines 136-146 — no `risk.reject` topic is ever
published; the claimed "explicit reject event" does not exist). -/
theorem c8_counterexample_no_reject_bus_event :
    (handle_proposal defaultRiskConfig ⟨100000, 0, []⟩ [] [] "p1" "SPY" 100 200).reject_reason
        = some "notional_limit" ∧
    (handle_proposal defaultRiskConfig ⟨100000, 0, []⟩ [] [] "p1" "SPY" 100 200).audits
        = ["risk_reject"] ∧
    (handle_proposal defaultRiskConfig ⟨100000, 0, []⟩ [] [] "p1" "SPY" 100 200).alerts
        = ["risk_reject"] ∧
    (handle_proposal defaultRiskConfig ⟨100000, 0, []⟩ [] [] "p1" "SPY" 100 200).busTopics
        = [] := by
  norm_num [handle_proposal, defaultRiskConfig, abs_of_nonneg]

/-- C8 (amended): every business rejection — a proposal failing a risk
rule (notional, leverage, VaR) or a compliance rule (restricted symbol,
prohibited behavior, concentration) — produces both an audit record and
an alert carrying the rejection action; the code publishes no separate
reject event on the bus. -/
theorem c8_rejections_audited_and_alerted (rcfg : RiskConfig)
    (rsnapshot : PortfolioState) (latest_prices : List (String × ℚ))
    (history : List (String × List ℚ)) (rpid rsym : String)
    (rprice rqty : ℚ) (ccfg : ComplianceConfig)
    (csnapshot : PortfolioState) (csym : String) (cprice cqty : ℚ)
    (text_tokens truthy_flags : List String) :
    ((handle_proposal rcfg rsnapshot latest_prices history rpid rsym rprice
        rqty).reject_reason.isSome = true →
      "risk_reject" ∈ (handle_proposal rcfg rsnapshot latest_prices history
          rpid rsym rprice rqty).audits ∧
      "risk_reject" ∈ (handle_proposal rcfg rsnapshot latest_prices history
          rpid rsym rprice rqty).alerts)
    ∧ ((handle_risk_approval ccfg csnapshot csym cprice cqty text_tokens
        truthy_flags).reject_reason.isSome = true →
      "compliance_reject" ∈ (handle_risk_approval ccfg csnapshot csym cprice
          cqty text_tokens truthy_flags).audits ∧
      "compliance_reject" ∈ (handle_risk_approval ccfg csnapshot csym cprice
          cqty text_tokens truthy_flags).alerts) := by
  constructor
  · simp only [handle_proposal]
    split
    · intro _; simp
    · split
      · intro _; simp
      · split
        · intro _; simp
        · intro h; simp at h
  · simp only [handle_risk_approval]
    split
    · intro _; simp
    · split
      · intro _; simp
      · split
        · intro _; simp
        · intro h; simp at h

theorem c8_witness :
    (((handle_proposal defaultRiskConfig ⟨5, 0, []⟩ [] [] "p2" "SPY" 100
        100).reject_reason.isSome = true) ∧
      ((handle_risk_approval ⟨["BAD"], 1 / 5, [], []⟩ ⟨1000, 0, []⟩ "BAD" 10 1
        [] []).reject_reason.isSome = true)) ∧
    (("risk_reject" ∈ (handle_proposal defaultRiskConfig ⟨5, 0, []⟩ [] [] "p2"
          "SPY" 100 100).audits ∧
      "risk_reject" ∈ (handle_proposal defaultRiskConfig ⟨5, 0, []⟩ [] [] "p2"
          "SPY" 100 100).alerts) ∧
      ("compliance_reject" ∈ (handle_risk_approval ⟨["BAD"], 1 / 5, [], []⟩
          ⟨1000, 0, []⟩ "BAD" 10 1 [] []).audits ∧
        "compliance_reject" ∈ (handle_risk_approval ⟨["BAD"], 1 / 5, [], []⟩
          ⟨1000, 0, []⟩ "BAD" 10 1 [] []).alerts)) :=
  have hr : (handle_proposal defaultRiskConfig ⟨5, 0, []⟩ [] [] "p2" "SPY" 100
      100).reject_reason.isSome = true := by
    norm_num [handle_proposal, defaultRiskConfig, abs_of_nonneg]
  have hc : (handle_risk_approval ⟨["BAD"], 1 / 5, [], []⟩ ⟨1000, 0, []⟩ "BAD"
      10 1 [] []).reject_reason.isSome = true := by
    norm_num [handle_risk_approval]
  have main := c8_rejections_audited_and_alerted defaultRiskConfig ⟨5, 0, []⟩
    [] [] "p2" "SPY" 100 100 ⟨["BAD"], 1 / 5, [], []⟩ ⟨1000, 0, []⟩ "BAD" 10 1
    [] []
  ⟨⟨hr, hc⟩, ⟨main.1 hr, main.2 hc⟩⟩

/-! ## Orchestrator kill switch (`src/agents/runtime.py`) -/

/-- The kill-switch fields of `AgentRuntime` (runtime.py lines 69-72). -/
structure RuntimeState where
  kill_switch_reason : Option String
  kill_switch_trigger : Option String
  tick_count : Nat
  deriving Repr, DecidableEq

/-- Embeds `AgentRuntime._handle_kill_signal` (runtime.py lines 212-237): the
first kill event — from any of the source topics the runtime subscribes
to — latches the reason (falling back to `"unspecified"` when the payload
reason is absent or empty) and the trigger topic; every later kill event
is ignored, and nothing ever resets the fields on a live instance. -/
def handle_kill_signal (s : RuntimeState) (topic : String)
    (reason : Option String) : RuntimeState :=
  if s.kill_switch_reason.isSome then s
  else
    { s with
      kill_switch_reason :=
        some (match reason with
          | some r => if r ≠ "" then r else "unspecified"
          | none => "unspecified")
      kill_switch_trigger := some topic }

/-- Embeds `AgentRuntime._run_iteration` (runtime.py lines 138-147): with the
kill switch engaged the tick is skipped entirely — no agent tick hook
runs, so no pipeline events are produced and the tick count freezes.
Otherwise one pipeline cycle runs; the bus topics the stages emit during
that cycle (directive → proposal → approval → fill) are abstracted by the
`pipeline` argument, the stage handlers being modelled individually
elsewhere in this file. -/
def run_iteration (pipeline : Nat → List String) (s : RuntimeState) :
    RuntimeState × List String :=
  if s.kill_switch_reason.isSome then (s, [])
  else ({ s with tick_count := s.tick_count + 1 }, pipeline s.tick_count)

/-- An input to the runtime: a kill-switch message or a tick request. -/
inductive RuntimeInput where
  | killSignal (topic : String) (reason : Option String)
  | iterate
  deriving Repr, DecidableEq

/-- Drive the runtime over a sequence of inputs, concatenating the
pipeline events produced. -/
def runtime_run (pipeline : Nat → List String) :
    RuntimeState → List RuntimeInput → RuntimeState × List String
  | s, [] => (s, [])
  | s, RuntimeInput.killSignal topic reason :: rest =>
      runtime_run pipeline (handle_kill_signal s topic reason) rest
  | s, RuntimeInput.iterate :: rest =>
      let r := run_iteration pipeline s
      let rr := runtime_run pipeline r.1 rest
      (rr.1, r.2 ++ rr.2)

/-- C3: a kill signal on any source topic engages the kill switch, and
from an engaged state every subsequent input sequence — further kill
signals and tick requests alike — leaves the runtime state exactly as it
is (the reason and trigger persist for the life of the instance) and
produces no pipeline events at all, hence no new approvals. -/
theorem c3_kill_switch_terminal (pipeline : Nat → List String)
    (s : RuntimeState) (topic : String) (reason : Option String)
    (inputs : List RuntimeInput)
    (hkilled : s.kill_switch_reason.isSome = true) :
    (handle_kill_signal s topic reason).kill_switch_reason.isSome = true ∧
      runtime_run pipeline s inputs = (s, []) := by
  constructor
  · unfold handle_kill_signal
    rw [if_pos hkilled]
    exact hkilled
  · induction inputs generalizing s with
    | nil => rfl
    | cons i rest ih =>
      cases i with
      | killSignal t r =>
          have hstep : handle_kill_signal s t r = s := by
            unfold handle_kill_signal
            rw [if_pos hkilled]
          rw [runtime_run, hstep]
          exact ih s hkilled
      | iterate =>
          have hstep : run_iteration pipeline s = (s, []) := by
            unfold run_iteration
            rw [if_pos hkilled]
          rw [runtime_run, hstep]
          rw [ih s hkilled]
          simp

theorem c3_witness :
    ((⟨some "stress_breach", some "risk.kill_switch", 3⟩ :
        RuntimeState).kill_switch_reason.isSome = true) ∧
    ((handle_kill_signal ⟨some "stress_breach", some "risk.kill_switch", 3⟩
        "compliance.kill_switch" (some "late")).kill_switch_reason.isSome = true ∧
      runtime_run (fun _ => ["risk.approval", "compliance.approval"])
          ⟨some "stress_breach", some "risk.kill_switch", 3⟩
          [RuntimeInput.iterate,
            RuntimeInput.killSignal "compliance.kill_switch" (some "late"),
            RuntimeInput.iterate]
        = (⟨some "stress_breach", some "risk.kill_switch", 3⟩, [])) :=
  ⟨rfl,
   c3_kill_switch_terminal (fun _ => ["risk.approval", "compliance.approval"])
     ⟨some "stress_breach", some "risk.kill_switch", 3⟩
     "compliance.kill_switch" (some "late")
     [RuntimeInput.iterate,
       RuntimeInput.killSignal "compliance.kill_switch" (some "late"),
       RuntimeInput.iterate]
     rfl⟩

end Agenthedge
